import Mathlib

set_option maxRecDepth 100000

/-!
Verification development for the car-sales-database harvesting pipeline.

The definitions below are a shallow embedding of `data_pipeline/scraper.py`
(the current pipeline), with the older variants `src/main.py` and
`src/main_multithreading.py` embedded where a claim is about them
(the duplicate-removal pass exists in two shapes).

Python floats used by the throttle controller are modelled as rationals:
the throttle arithmetic (multiplication by the fixed factors 0.8 and 1.5,
`max` with the 1.0 floor) is exact in every binary-float run that the
constants admit, and the claims are about the algebraic shape of the
update, not about rounding.
-/

namespace CarSales

/-! ## Configuration constants (scraper.py lines 28-54) -/

def PROCESS_ALL : Bool := false
def PAGE_LIMIT : Nat := 20
def DB_REFRESH_RATE : Nat := 10
def BATCH_SIZE : Nat := 200
def MAX_DUPLICATES_REMOVAL : Nat := 1000
def ADAPTIVE_THROTTLE_ENABLED : Bool := true
def THROTTLE_CHECK_INTERVAL : Nat := 20
def THROTTLE_429_THRESHOLD : ℚ := 1/10
def THROTTLE_REDUCTION_FACTOR : ℚ := 4/5
def THROTTLE_MIN_RPS : ℚ := 1
def THROTTLE_DELAY_INCREASE : ℚ := 3/2
def MAX_TOTAL_429 : Nat := 50

/-! ## Throttle controller (scraper.py lines 59-174)

`ThrottleState` packs the module-level mutable globals of scraper.py:
`REQUESTS_PER_SECOND`, `RANDOM_DELAY_RANGE`, `_429_count`,
`_total_request_attempts`, `_total_429_global`. -/

structure ThrottleState where
  rps : ℚ
  delayLo : ℚ
  delayHi : ℚ
  count429 : Nat
  attempts : Nat
  total429 : Nat
deriving DecidableEq

/-- Module initial values: `REQUESTS_PER_SECOND = 5`,
`RANDOM_DELAY_RANGE = (0.01, 0.05)`, counters zero. -/
def initThrottle : ThrottleState :=
  { rps := 5, delayLo := 1/100, delayHi := 1/20,
    count429 := 0, attempts := 0, total429 := 0 }

/-- `adjust_rate_limit_if_needed` (scraper.py lines 116-139): early return
when throttling is disabled or the window has fewer than
`THROTTLE_CHECK_INTERVAL` attempts; otherwise, when the window's 429 ratio
is at or above the threshold, reduce the RPS (floored at the minimum) and
scale the jitter range up; in either case reset both window counters. -/
def adjustRateLimitIfNeeded (s : ThrottleState) : ThrottleState :=
  if ADAPTIVE_THROTTLE_ENABLED = false ∨ s.attempts < THROTTLE_CHECK_INTERVAL then s
  else if THROTTLE_429_THRESHOLD ≤ (s.count429 : ℚ) / (s.attempts : ℚ) then
    { s with rps := max THROTTLE_MIN_RPS (s.rps * THROTTLE_REDUCTION_FACTOR),
             delayLo := s.delayLo * THROTTLE_DELAY_INCREASE,
             delayHi := s.delayHi * THROTTLE_DELAY_INCREASE,
             count429 := 0, attempts := 0 }
  else { s with count429 := 0, attempts := 0 }

/-- The per-attempt outcome seen by `fetch_page`'s counter updates:
an HTTP response arrived (counted as an attempt) and was a 429 or not,
or the request raised (timeout / connection error) before the counter
increment, which skips the window update entirely. -/
inductive FetchOutcome
  | okResponse
  | rateLimited
  | raisedBeforeCount
deriving DecidableEq

/-- Counter updates inside `fetch_page` (scraper.py lines 94-106):
every completed response increments `_total_request_attempts`;
a 429 additionally increments `_429_count` and `_total_429_global`. -/
def recordFetch (s : ThrottleState) : FetchOutcome → ThrottleState
  | .okResponse => { s with attempts := s.attempts + 1 }
  | .rateLimited =>
      { s with attempts := s.attempts + 1, count429 := s.count429 + 1,
               total429 := s.total429 + 1 }
  | .raisedBeforeCount => s

/-- One `rate_limited_fetch_page` round trip as seen by the throttle
state: record the fetch outcome, then run the adjustment check
(scraper.py lines 160-161). -/
def reportOutcome (s : ThrottleState) (o : FetchOutcome) : ThrottleState :=
  adjustRateLimitIfNeeded (recordFetch s o)

/-- The throttle state after a run that saw the given outcome sequence. -/
def runThrottle (os : List FetchOutcome) : ThrottleState :=
  os.foldl reportOutcome initThrottle

/-! ## Postcode normalization (scraper.py lines 209-211 and 459-465)

Python string slicing `raw[0:4]` and `raw[-2:]` and the regex
`^\d{4}[A-Z]{2}$` are modelled on the character list of the string;
only ASCII digits and uppercase letters can satisfy the pattern's intent
and `Char.toUpper` agrees with Python `str.upper` on ASCII. -/

/-- `raw_postcode[0:4] + raw_postcode[-2:].upper()`: Python slices clamp,
so `take` and `drop (length - 2)` (with truncated subtraction) agree. -/
def pyNormalizeZip (l : List Char) : List Char :=
  l.take 4 ++ (l.drop (l.length - 2)).map Char.toUpper

/-- Full match of `^\d{4}[A-Z]{2}$`: six characters, the first four
digits, the last two uppercase letters. -/
def isValidPostcode (l : List Char) : Bool :=
  l.length = 6 && (l.take 4).all Char.isDigit &&
    (l.drop 4).all (fun c => 'A' ≤ c && c ≤ 'Z')

/-- The `post_code` computation of `process_page` (scraper.py lines
459-465): `None` input raises `TypeError` in the slice, caught by the
bare `except` giving `None`; otherwise the normalized string is kept
only when it matches the postcode pattern. -/
def normalizePostcode : Option String → Option String
  | none => none
  | some s =>
      let p := pyNormalizeZip s.data
      if isValidPostcode p then some (String.mk p) else none

/-! ## Records -/

/-- One `<article>` element as far as the pipeline's control flow and the
claims read it: its `id` attribute and its `data-listing-zip-code`
attribute. The remaining attribute fields of `car_info` are copied
verbatim from the markup and decide nothing. -/
structure RawCar where
  id : String
  zip : Option String
deriving DecidableEq

/-- The fields of the `car_info` dict that the claims are about. -/
structure CarInfo where
  car_id : String
  post_code_raw : Option String
  post_code : Option String
deriving DecidableEq

/-- Building `car_info` from one listing (scraper.py lines 459-514):
`post_code_raw` keeps the raw attribute unaltered, `post_code` is the
normalized form or `None`. -/
def mkCarInfo (c : RawCar) : CarInfo :=
  { car_id := c.id, post_code_raw := c.zip, post_code := normalizePostcode c.zip }

/-! ## Fetching one page (scraper.py lines 91-113)

A run is driven by a page-event oracle describing what the network
returns for each requested coordinate. -/

/-- What the upstream source does for one `fetch_page` call:
a 200 response whose body the extractor turns into `cars`
(`cars = []` is the end-of-results page), a failure that leaves
`html = None` (read timeout, connection error, or a non-429 error
status raised by `raise_for_status` after the retry budget), or a final
HTTP 429 response. -/
inductive PageEvent
  | resp (cars : List RawCar)
  | failed
  | rl429
deriving DecidableEq

/-- `fetch_page` as it affects the breaker counter and the returned html.
On a 429 the global counter `_total_429_global` is incremented and then
checked against `MAX_TOTAL_429` (lines 100-106): reaching the ceiling
raises `SystemExit`; otherwise `raise_for_status` raises `HTTPError`,
which is caught, returning `None`. The error value carries the breaker
counter at the moment of the `SystemExit`. -/
def fetchPage : PageEvent → Nat → Except Nat (Option (List RawCar) × Nat)
  | .resp cars, t => .ok (some cars, t)
  | .failed, t => .ok (none, t)
  | .rl429, t =>
      if MAX_TOTAL_429 ≤ t + 1 then .error (t + 1) else .ok (none, t + 1)

/-- The id filter of `process_page` (scraper.py line 448). -/
def passesIdFilter (known upsert : List String) (cid : String) : Bool :=
  !(upsert.contains cid) && (!(known.contains cid) || PROCESS_ALL)

/-- Result of `process_page` (scraper.py lines 433-517): `-1` when the
page parsed but held no listings (modelled `endOfBin`), otherwise a list
of `car_info` dicts; a failed fetch yields the empty list. -/
inductive PageResult
  | endOfBin
  | records (cars : List CarInfo)
deriving DecidableEq

/-- `process_page`: fetch, return `[]` on `None` html, `-1` on a page
without listings, else build `car_info` for each listing that passes the
id filter. -/
def processPage (ev : PageEvent) (known upsert : List String) (t : Nat) :
    Except Nat (PageResult × Nat) :=
  match fetchPage ev t with
  | .error e => .error e
  | .ok (none, t') => .ok (.records [], t')
  | .ok (some cars, t') =>
      if cars.isEmpty then .ok (.endOfBin, t')
      else .ok (.records ((cars.filter (fun c => passesIdFilter known upsert c.id)).map mkCarInfo), t')

/-- Whether an event is the end-of-results signal: a 200 page from which
the extractor got no listings. -/
def isEndSignal : PageEvent → Bool
  | .resp cars => cars.isEmpty
  | .failed => false
  | .rl429 => false

/-! ## The per-bin page loop `scrape_km_range` (scraper.py lines 524-553)

Dispatched pages are recorded as `(page, sawEnd)` pairs so the claims
about dispatch can be stated; the trace is observational instrumentation
and does not influence the computation. -/

/-- The `for page_index in range(PAGE_LIMIT)` loop: process each page in
order, stop at the first end-of-results page, extend the local record
list otherwise; an uncaught `SystemExit` aborts the loop. The error
value carries the breaker counter and the dispatch trace. -/
def scrapeKmLoop (pages : Nat → PageEvent) (known upsert : List String) :
    List Nat → Nat → List CarInfo → List (Nat × Bool) →
    Except (Nat × List (Nat × Bool)) (List CarInfo × List (Nat × Bool) × Nat)
  | [], t, acc, disp => .ok (acc, disp, t)
  | p :: ps, t, acc, disp =>
      match processPage (pages p) known upsert t with
      | .error t' => .error (t', disp ++ [(p, false)])
      | .ok (.endOfBin, t') => .ok (acc, disp ++ [(p, true)], t')
      | .ok (.records rs, t') =>
          scrapeKmLoop pages known upsert ps t' (acc ++ rs) (disp ++ [(p, false)])

/-- `scrape_km_range` for one (price, km) bin: pages 1 .. PAGE_LIMIT. -/
def scrapeKmRange (pages : Nat → PageEvent) (known upsert : List String) (t : Nat) :
    Except (Nat × List (Nat × Bool)) (List CarInfo × List (Nat × Bool) × Nat) :=
  scrapeKmLoop pages known upsert (List.range' 1 PAGE_LIMIT) t [] []

/-- The dispatch trace of a bin sweep, whether or not it was aborted. -/
def dispatchedPages
    (r : Except (Nat × List (Nat × Bool)) (List CarInfo × List (Nat × Bool) × Nat)) :
    List (Nat × Bool) :=
  match r with
  | .error (_, d) => d
  | .ok (_, d, _) => d

/-! ## The grid sweep `scrape_cars` (scraper.py lines 556-668)

`ScrapeSt` packs the locals of `scrape_cars` plus the store and the
breaker counter. The thread pool is modelled by the serialized schedule
in which each km-range future runs and is collected in submission order;
any interleaving yields some such sequential history for the properties
at issue here, and a counterexample needs only one reachable schedule. -/

inductive FlushKind
  | size
  | final
deriving DecidableEq

inductive ExitKind
  | normal
  | sysExit
deriving DecidableEq

structure ScrapeSt where
  known : List String
  upsertIds : List String
  pending : List CarInfo
  store : List CarInfo
  flushes : List (FlushKind × Nat)
  countAdded : Nat
  t429 : Nat
deriving DecidableEq

/-- Collecting one record from a finished km-range future (scraper.py
lines 622-627): append it to `cars_to_insert` only when its id is not in
`car_ids_in_database`, recording the id in both id sets. -/
def offer (s : ScrapeSt) (r : CarInfo) : ScrapeSt :=
  if s.known.contains r.car_id then s
  else { s with pending := s.pending ++ [r],
                known := r.car_id :: s.known,
                upsertIds := r.car_id :: s.upsertIds }

/-- Collect every record of one future's result, in order. -/
def collectCars (s : ScrapeSt) (cars : List CarInfo) : ScrapeSt :=
  cars.foldl offer s

/-- One km-range future: run `scrape_km_range`, then collect its records
under the lock. A `SystemExit` stored in the future is re-raised by
`future.result()` and is not caught by the `except Exception` handler
(line 628), aborting the collection with the batch state as it stands. -/
def processKmBin (pages : Nat → PageEvent) (s : ScrapeSt) : Except ScrapeSt ScrapeSt :=
  match scrapeKmRange pages s.known s.upsertIds s.t429 with
  | .error (t, _) => .error { s with t429 := t }
  | .ok (cars, _, t) => .ok (collectCars { s with t429 := t } cars)

/-- All km-range futures of one price bin, in submission order. -/
def runKmBins (ev : Nat → Nat → PageEvent) : List Nat → ScrapeSt → Except ScrapeSt ScrapeSt
  | [], s => .ok s
  | k :: ks, s =>
      match processKmBin (ev k) s with
      | .error e => .error e
      | .ok s' => runKmBins ev ks s'

/-- The per-price-bin batch check (scraper.py lines 631-637): flush the
whole pending list to the store once it has reached `BATCH_SIZE`,
clearing the pending list and `car_ids_in_upsert`. -/
def sizeFlushCheck (s : ScrapeSt) : ScrapeSt :=
  if BATCH_SIZE ≤ s.pending.length then
    { s with store := s.store ++ s.pending,
             flushes := s.flushes ++ [(FlushKind.size, s.pending.length)],
             countAdded := s.countAdded + s.pending.length,
             pending := [], upsertIds := [] }
  else s

/-- Re-reading `car_ids_in_database` from the store (scraper.py lines
603-605). -/
def refreshKnownIds (s : ScrapeSt) : ScrapeSt :=
  { s with known := s.store.map (fun r => r.car_id) }

/-- One iteration of the price loop (scraper.py lines 597-637): refresh
the known-id snapshot every `DB_REFRESH_RATE` bins, sweep every km bin,
then run the batch-size check. -/
def processPriceBin (ev : Nat → Nat → Nat → PageEvent) (kmIdxs : List Nat) (p : Nat)
    (s : ScrapeSt) : Except ScrapeSt ScrapeSt :=
  match runKmBins (ev p) kmIdxs (if p % DB_REFRESH_RATE = 0 then refreshKnownIds s else s) with
  | .error e => .error e
  | .ok s2 => .ok (sizeFlushCheck s2)

/-- The price loop. -/
def runPriceBins (ev : Nat → Nat → Nat → PageEvent) (kmIdxs : List Nat) :
    List Nat → ScrapeSt → Except ScrapeSt ScrapeSt
  | [], s => .ok s
  | p :: ps, s =>
      match processPriceBin ev kmIdxs p s with
      | .error e => .error e
      | .ok s' => runPriceBins ev kmIdxs ps s'

/-- Price-bin boundaries (scraper.py lines 558-565); `1e9` as an integer. -/
def priceRanges : List Nat :=
  [0, 500, 650, 700, 750, 850, 1000, 1100, 1250, 1500, 1750, 2000, 2250, 2500, 2750,
   3000, 3250, 3500, 4000, 4500, 5000, 5500, 6000, 6500, 7000, 7500, 8000, 8500, 9000,
   9500, 10000, 10500, 11000, 11500, 12000, 12500, 13000, 13500, 14000, 14500, 15000,
   15500, 16000, 16500, 17000, 17500, 18000, 18500, 19000, 19500, 19750, 20000, 20500,
   21000, 21500, 22000, 22500, 23000, 23500, 24000, 24500, 25000, 26000, 27000, 28000,
   28500, 29000, 30000, 31000, 32000, 33000, 34000, 34500, 35000, 35500, 36000, 36500,
   37000, 37500, 38000, 39000, 39500, 40000, 41000, 42000, 43000, 43500, 44000, 44500,
   45000, 46000, 47000, 48000, 49000, 50000, 51000, 52000, 53000, 54000, 55000, 56000,
   57000, 58000, 59000, 60000, 61000, 62000, 64000, 66000, 68000, 70000, 75000, 80000,
   85000, 90000, 95000, 100000, 125000, 150000, 1000000000]

/-- Mileage-bin boundaries (scraper.py lines 567-571). -/
def kmRanges : List Nat :=
  [0, 1, 2, 5, 7, 8, 10, 11, 12, 15, 20, 50, 100, 200, 500, 1000, 2000, 3000, 5000,
   10000, 15000, 20000, 25000, 30000, 35000, 40000, 45000, 50000, 55000, 60000, 70000,
   80000, 90000, 100000, 110000, 120000, 130000, 140000, 145000, 150000, 155000, 160000,
   170000, 180000, 190000, 200000, 210000, 220000, 230000, 240000, 260000, 280000,
   300000, 350000, 400000, 1000000000]

/-- The end-of-run flush (scraper.py lines 661-665): upsert whatever is
pending, if anything. -/
def finalFlush (s : ScrapeSt) : ScrapeSt :=
  if s.pending.isEmpty then s
  else { s with store := s.store ++ s.pending,
                flushes := s.flushes ++ [(FlushKind.final, s.pending.length)],
                countAdded := s.countAdded + s.pending.length,
                pending := [] }

/-- The state of `scrape_cars` after its initial known-id fetch
(scraper.py lines 585-589). -/
def initScrapeSt (initStore : List CarInfo) : ScrapeSt :=
  { known := initStore.map (fun r => r.car_id), upsertIds := [], pending := [],
    store := initStore, flushes := [], countAdded := 0, t429 := 0 }

/-- `scrape_cars`: the full grid sweep followed by the end-of-run flush.
The oracle is indexed by (price index, km index, page number). -/
def scrapeCars (ev : Nat → Nat → Nat → PageEvent) (initStore : List CarInfo) :
    Except ScrapeSt ScrapeSt :=
  match runPriceBins ev (List.range (kmRanges.length - 1))
      (List.range (priceRanges.length - 1)) (initScrapeSt initStore) with
  | .error e => .error e
  | .ok s => .ok (finalFlush s)

/-- Observable outcome of one `main()` invocation. -/
structure RunReport where
  flushes : List (FlushKind × Nat)
  store : List CarInfo
  pendingAtEnd : List CarInfo
  countAdded : Nat
  total429 : Nat
  dupRemovalRan : Bool
  exit : ExitKind
deriving DecidableEq

/-- `main` (scraper.py lines 674-689): `scrape_cars` then
`remove_duplicates` inside `try/except Exception`. `SystemExit` derives
from `BaseException`, so neither this handler nor the `except Exception`
around `future.result()` catches it: the process terminates before the
end-of-run flush and before `remove_duplicates`. The report records the
observable effects up to termination; `store` is the table content
before the duplicate-removal pass. -/
def mainModel (ev : Nat → Nat → Nat → PageEvent) (initStore : List CarInfo) : RunReport :=
  match scrapeCars ev initStore with
  | .ok s =>
      { flushes := s.flushes, store := s.store, pendingAtEnd := s.pending,
        countAdded := s.countAdded, total429 := s.t429,
        dupRemovalRan := true, exit := ExitKind.normal }
  | .error s =>
      { flushes := s.flushes, store := s.store, pendingAtEnd := s.pending,
        countAdded := s.countAdded, total429 := s.t429,
        dupRemovalRan := false, exit := ExitKind.sysExit }

/-! ## Duplicate removal (scraper.py lines 299-316; src/main.py lines 114-127)

A stored row has the table's serial primary key `id` and the listing key
`car_id`. `pandas.DataFrame.duplicated(subset=['car_id'], keep="first")`
marks a row precisely when an earlier row of the frame has the same
`car_id`. -/

structure DbRow where
  rowId : Nat
  car_id : String
deriving DecidableEq

/-- The rows marked by `duplicated(subset=['car_id'], keep="first")`,
in frame order: every row with an earlier same-`car_id` row. -/
def duplicatedRows (rows : List DbRow) : List DbRow :=
  (rows.foldl
    (fun st r =>
      if st.1.contains r.car_id then (st.1, st.2 ++ [r])
      else (r.car_id :: st.1, st.2))
    ([], [])).2

/-- Python `range(0, bound, step)` for positive `step`. -/
def pyRangeStep (bound step : Nat) : List Nat :=
  (List.range ((bound + step - 1) / step)).map (fun i => i * step)

/-- `remove_duplicates` of scraper.py (lines 299-316): it collects the
`car_id` column of the duplicated rows and issues chunked
`delete().in_("car_id", chunk)` calls, capped at `max_removals` list
positions; deleting by `car_id` removes every row carrying that value. -/
def removeDuplicatesScraper (rows : List DbRow) (chunkSize : Nat := 1000)
    (maxRemovals : Nat := MAX_DUPLICATES_REMOVAL) : List DbRow :=
  let carIdToRemove := (duplicatedRows rows).map (fun r => r.car_id)
  if carIdToRemove.length = 0 then rows
  else
    (pyRangeStep (min maxRemovals carIdToRemove.length) chunkSize).foldl
      (fun tbl i =>
        let chunk := (carIdToRemove.drop i).take chunkSize
        tbl.filter (fun r => !(chunk.contains r.car_id)))
      rows

/-- `remove_duplicates` of src/main.py (lines 114-127): it collects the
`id` (primary-key) column of the duplicated rows and issues chunked
`delete().in_("id", chunk)` calls, so exactly the non-first rows of each
duplicated `car_id` are removed. -/
def removeDuplicatesById (rows : List DbRow) (chunkSize : Nat := 1000) : List DbRow :=
  let idToRemove := (duplicatedRows rows).map (fun r => r.rowId)
  if idToRemove.length = 0 then rows
  else
    (pyRangeStep idToRemove.length chunkSize).foldl
      (fun tbl i =>
        let chunk := (idToRemove.drop i).take chunkSize
        tbl.filter (fun r => !(chunk.contains r.rowId)))
      rows

/-- The keep-first cleaning the spec describes: retain each row whose
`car_id` did not occur earlier in the table. -/
def keepFirstPerCarId (rows : List DbRow) : List DbRow :=
  (rows.foldl
    (fun st r =>
      if st.1.contains r.car_id then st
      else (r.car_id :: st.1, st.2 ++ [r]))
    ([], [])).2

/-! ## Predicates used by the statements -/

/-- The throttle-state facts the controller maintains: the RPS target is
at or above the floor and the jitter bounds are nonnegative. -/
def InvThrottle (s : ThrottleState) : Prop :=
  THROTTLE_MIN_RPS ≤ s.rps ∧ 0 ≤ s.delayLo ∧ 0 ≤ s.delayHi

/-- The ids of the records sitting in the pending batch. -/
def pendingIds (s : ScrapeSt) : List String :=
  s.pending.map (fun r => r.car_id)

/-- Every pending record's id is registered in `car_ids_in_database`:
`offer` adds each appended id there, and a flush clears the pending
batch without removing ids. -/
def BatchInv (s : ScrapeSt) : Prop :=
  ∀ cid ∈ pendingIds s, cid ∈ s.known

/-- What a well-sized flush event looks like: a size-triggered flush
carries at least `BATCH_SIZE` records and the end-of-run flush carries a
nonempty remainder strictly below `BATCH_SIZE`. -/
def flushEventOk (f : FlushKind × Nat) : Prop :=
  (f.1 = FlushKind.size → BATCH_SIZE ≤ f.2) ∧
  (f.1 = FlushKind.final → 0 < f.2 ∧ f.2 < BATCH_SIZE)

/-- The scrape state carried by a finished sweep or left behind by an
aborted one. -/
def exSt : Except ScrapeSt ScrapeSt → ScrapeSt
  | .ok s => s
  | .error s => s

/-! ## Concrete runs used as test inputs -/

/-- A run whose first page yields one new record and every further page
answers 429: the breaker ceiling is reached with the record still
pending. -/
def c1Ev (p k page : Nat) : PageEvent :=
  if p = 0 && k = 0 && page = 1 then .resp [⟨"car1", none⟩] else .rl429

/-- 201 distinct listings on one page. -/
def c4Cars : List RawCar := (List.range 201).map (fun i => ⟨toString i, none⟩)

/-- A run whose first price bin accumulates 201 fresh records (one more
than `BATCH_SIZE`) before the per-price-bin batch check; later bins
answer 429. -/
def c4Ev (p k page : Nat) : PageEvent :=
  if p = 0 && k = 0 && page = 1 then .resp c4Cars
  else if p = 0 then .resp [] else .rl429

/-- A bin whose pages 1 and 2 hold listings and whose page 3 is the
end-of-results page. -/
def c3Pages (p : Nat) : PageEvent :=
  if p ≤ 2 then .resp [⟨"z", none⟩] else .resp []

/-- A bin where every fetch fails (timeout / exhausted retries). -/
def c9Pages (_ : Nat) : PageEvent := .failed

/-! ## Throttle controller lemmas -/

theorem recordFetch_rps (s : ThrottleState) (o : FetchOutcome) :
    (recordFetch s o).rps = s.rps ∧ (recordFetch s o).delayLo = s.delayLo ∧
    (recordFetch s o).delayHi = s.delayHi := by
  cases o <;> exact ⟨rfl, rfl, rfl⟩

theorem adjust_rps_floor (s : ThrottleState) (h : THROTTLE_MIN_RPS ≤ s.rps) :
    THROTTLE_MIN_RPS ≤ (adjustRateLimitIfNeeded s).rps := by
  unfold adjustRateLimitIfNeeded
  split
  · exact h
  · split
    · exact le_max_left _ _
    · exact h

theorem adjust_inv (s : ThrottleState) (h : InvThrottle s) :
    InvThrottle (adjustRateLimitIfNeeded s) := by
  obtain ⟨h1, h2, h3⟩ := h
  refine ⟨adjust_rps_floor s h1, ?_, ?_⟩ <;>
    · unfold adjustRateLimitIfNeeded
      split
      · assumption
      · split
        · show (0:ℚ) ≤ _ * THROTTLE_DELAY_INCREASE
          unfold THROTTLE_DELAY_INCREASE
          positivity
        · assumption

theorem reportOutcome_inv (s : ThrottleState) (o : FetchOutcome) (h : InvThrottle s) :
    InvThrottle (reportOutcome s o) := by
  apply adjust_inv
  obtain ⟨e1, e2, e3⟩ := recordFetch_rps s o
  exact ⟨e1 ▸ h.1, e2 ▸ h.2.1, e3 ▸ h.2.2⟩

theorem initThrottle_inv : InvThrottle initThrottle := by
  refine ⟨?_, ?_, ?_⟩ <;> norm_num [initThrottle, THROTTLE_MIN_RPS]

theorem runThrottle_inv (os : List FetchOutcome) : InvThrottle (runThrottle os) := by
  have H : ∀ (l : List FetchOutcome) (s : ThrottleState), InvThrottle s →
      InvThrottle (l.foldl reportOutcome s) := by
    intro l
    induction l with
    | nil => exact fun s hs => hs
    | cons o l ih => exact fun s hs => ih _ (reportOutcome_inv s o hs)
  exact H os initThrottle initThrottle_inv

theorem adjust_easing (s : ThrottleState) (h : InvThrottle s) :
    (adjustRateLimitIfNeeded s).rps ≤ s.rps ∧
    s.delayLo ≤ (adjustRateLimitIfNeeded s).delayLo ∧
    s.delayHi ≤ (adjustRateLimitIfNeeded s).delayHi := by
  obtain ⟨h1, h2, h3⟩ := h
  have h0 : (0:ℚ) ≤ s.rps := le_trans (by norm_num [THROTTLE_MIN_RPS]) h1
  unfold adjustRateLimitIfNeeded
  split
  · exact ⟨le_refl _, le_refl _, le_refl _⟩
  · split
    · refine ⟨?_, ?_, ?_⟩
      · show max THROTTLE_MIN_RPS (s.rps * THROTTLE_REDUCTION_FACTOR) ≤ s.rps
        apply max_le h1
        exact mul_le_of_le_one_right h0 (by norm_num [THROTTLE_REDUCTION_FACTOR])
      · exact le_mul_of_one_le_right h2 (by norm_num [THROTTLE_DELAY_INCREASE])
      · exact le_mul_of_one_le_right h3 (by norm_num [THROTTLE_DELAY_INCREASE])
    · exact ⟨le_refl _, le_refl _, le_refl _⟩

/-! ## Claim theorems: throttle controller -/

/-- C2: once the window has at least `THROTTLE_CHECK_INTERVAL` attempts,
an adjustment with 429 ratio at or above the threshold sets the target
RPS to `max(minRps, rps * reductionFactor)` and scales both jitter
bounds by the delay-increase factor, and the window counters are reset
to zero whether or not the threshold was crossed. -/
theorem c2_window_adjustment (s : ThrottleState)
    (hwin : THROTTLE_CHECK_INTERVAL ≤ s.attempts) :
    (THROTTLE_429_THRESHOLD ≤ (s.count429 : ℚ) / (s.attempts : ℚ) →
       (adjustRateLimitIfNeeded s).rps
           = max THROTTLE_MIN_RPS (s.rps * THROTTLE_REDUCTION_FACTOR) ∧
       (adjustRateLimitIfNeeded s).delayLo = s.delayLo * THROTTLE_DELAY_INCREASE ∧
       (adjustRateLimitIfNeeded s).delayHi = s.delayHi * THROTTLE_DELAY_INCREASE) ∧
    (adjustRateLimitIfNeeded s).count429 = 0 ∧
    (adjustRateLimitIfNeeded s).attempts = 0 := by
  have hno : ¬(ADAPTIVE_THROTTLE_ENABLED = false ∨ s.attempts < THROTTLE_CHECK_INTERVAL) := by
    rintro (h | h)
    · exact absurd h (by decide)
    · omega
  unfold adjustRateLimitIfNeeded
  rw [if_neg hno]
  constructor
  · intro hr
    rw [if_pos hr]
    exact ⟨rfl, rfl, rfl⟩
  · split <;> exact ⟨rfl, rfl⟩

/-- Witness for C2 at a concrete window: 20 attempts, 3 of them 429. -/
theorem c2_window_adjustment_witness :
    (adjustRateLimitIfNeeded ⟨5, 1/100, 1/20, 3, 20, 3⟩).rps
        = max THROTTLE_MIN_RPS ((5:ℚ) * THROTTLE_REDUCTION_FACTOR) ∧
    (adjustRateLimitIfNeeded ⟨5, 1/100, 1/20, 3, 20, 3⟩).attempts = 0 :=
  ⟨((c2_window_adjustment ⟨5, 1/100, 1/20, 3, 20, 3⟩ (by norm_num [THROTTLE_CHECK_INTERVAL])).1
      (by norm_num [THROTTLE_429_THRESHOLD])).1,
   (c2_window_adjustment ⟨5, 1/100, 1/20, 3, 20, 3⟩ (by norm_num [THROTTLE_CHECK_INTERVAL])).2.2⟩

/-- C7: the floor invariant `targetRps ≥ minRps` holds at the initial
state, after any sequence of reported outcomes, and is preserved by any
single adjustment from a state satisfying it. -/
theorem c7_target_rps_floor :
    THROTTLE_MIN_RPS ≤ initThrottle.rps ∧
    (∀ os : List FetchOutcome, THROTTLE_MIN_RPS ≤ (runThrottle os).rps) ∧
    ∀ s : ThrottleState, THROTTLE_MIN_RPS ≤ s.rps →
      THROTTLE_MIN_RPS ≤ (adjustRateLimitIfNeeded s).rps :=
  ⟨initThrottle_inv.1, fun os => (runThrottle_inv os).1, fun s h => adjust_rps_floor s h⟩

/-- Witness for C7 at the initial state. -/
theorem c7_target_rps_floor_witness :
    THROTTLE_MIN_RPS ≤ (adjustRateLimitIfNeeded initThrottle).rps :=
  c7_target_rps_floor.2.2 initThrottle (by norm_num [initThrottle, THROTTLE_MIN_RPS])

/-- C8: along any run, one further reported outcome never raises the
target RPS and never shrinks either jitter bound. -/
theorem c8_never_reaccelerates (os : List FetchOutcome) (o : FetchOutcome) :
    (reportOutcome (runThrottle os) o).rps ≤ (runThrottle os).rps ∧
    (runThrottle os).delayLo ≤ (reportOutcome (runThrottle os) o).delayLo ∧
    (runThrottle os).delayHi ≤ (reportOutcome (runThrottle os) o).delayHi := by
  have hinv : InvThrottle (runThrottle os) := runThrottle_inv os
  obtain ⟨e1, e2, e3⟩ := recordFetch_rps (runThrottle os) o
  have hinv2 : InvThrottle (recordFetch (runThrottle os) o) :=
    ⟨e1 ▸ hinv.1, e2 ▸ hinv.2.1, e3 ▸ hinv.2.2⟩
  obtain ⟨m1, m2, m3⟩ := adjust_easing _ hinv2
  exact ⟨le_trans m1 (le_of_eq e1), le_trans (le_of_eq e2.symm) m2,
         le_trans (le_of_eq e3.symm) m3⟩

/-! ## Claim theorems: postcode field invariant -/

/-- C10: for every processed listing, `post_code_raw` keeps the raw zip
attribute unaltered, any non-`None` `post_code` matches the postcode
pattern (four digits then two uppercase letters), and a zip whose
normalized form fails the pattern yields `post_code = None`. -/
theorem c10_postcode_invariant (c : RawCar) :
    (mkCarInfo c).post_code_raw = c.zip ∧
    (∀ s, (mkCarInfo c).post_code = some s → isValidPostcode s.data = true) ∧
    (∀ z, c.zip = some z → isValidPostcode (pyNormalizeZip z.data) = false →
       (mkCarInfo c).post_code = none) := by
  refine ⟨rfl, ?_, ?_⟩
  · intro s hs
    cases hz : c.zip with
    | none => simp [mkCarInfo, normalizePostcode, hz] at hs
    | some z =>
        simp only [mkCarInfo, normalizePostcode, hz] at hs
        by_cases hv : isValidPostcode (pyNormalizeZip z.data) = true
        · rw [if_pos hv] at hs
          cases hs
          exact hv
        · rw [if_neg hv] at hs
          cases hs
  · intro z hz hval
    simp [mkCarInfo, normalizePostcode, hz, hval]

/-- Witness for C10 on the zip `"1234ab"`, normalized to `"1234AB"`. -/
theorem c10_postcode_invariant_witness :
    isValidPostcode (String.data "1234AB") = true ∧
    (mkCarInfo ⟨"x", some "1234ab"⟩).post_code_raw = some "1234ab" :=
  ⟨(c10_postcode_invariant ⟨"x", some "1234ab"⟩).2.1 "1234AB" (by decide),
   (c10_postcode_invariant ⟨"x", some "1234ab"⟩).1⟩

/-! ## Claim theorems: dedup batcher -/

theorem offer_of_contains (s : ScrapeSt) (r : CarInfo)
    (h : s.known.contains r.car_id = true) : offer s r = s := by
  unfold offer
  rw [if_pos h]

theorem offer_of_not_contains (s : ScrapeSt) (r : CarInfo)
    (h : ¬(s.known.contains r.car_id = true)) :
    offer s r = { s with pending := s.pending ++ [r],
                         known := r.car_id :: s.known,
                         upsertIds := r.car_id :: s.upsertIds } := by
  unfold offer
  rw [if_neg h]

/-- C6: for a collector state whose pending ids are all registered in
the known-id set (which `offer` maintains), offering a record whose id
is already pending or already known leaves the pending batch unchanged,
and offering the same fresh id twice leaves exactly one record with
that id in the batch. -/
theorem c6_offer_dedup (s : ScrapeSt) (r r2 : CarInfo) (hinv : BatchInv s) :
    BatchInv (offer s r) ∧
    ((r.car_id ∈ pendingIds s ∨ r.car_id ∈ s.known) → (offer s r).pending = s.pending) ∧
    (r.car_id ∉ s.known → r2.car_id = r.car_id →
       (pendingIds (offer (offer s r) r2)).count r.car_id = 1) := by
  refine ⟨?_, ?_, ?_⟩
  · by_cases hc : s.known.contains r.car_id = true
    · unfold offer
      rw [if_pos hc]
      exact hinv
    · unfold offer
      rw [if_neg hc]
      intro cid hcid
      simp only [pendingIds, List.map_append] at hcid
      rcases List.mem_append.mp hcid with h | h
      · exact List.mem_cons_of_mem _ (hinv cid h)
      · simp only [List.map_cons, List.map_nil, List.mem_singleton] at h
        exact h ▸ List.mem_cons_self _ _
  · intro hm
    have hk : r.car_id ∈ s.known := by
      rcases hm with h | h
      · exact hinv _ h
      · exact h
    unfold offer
    rw [if_pos (List.elem_iff.mpr hk)]
  · intro hnk hr2
    have hc1 : ¬(s.known.contains r.car_id = true) := fun h => hnk (List.elem_iff.mp h)
    have step1 : offer s r
        = { s with pending := s.pending ++ [r],
                   known := r.car_id :: s.known,
                   upsertIds := r.car_id :: s.upsertIds } :=
      offer_of_not_contains s r hc1
    have hc2 : (offer s r).known.contains r2.car_id = true := by
      rw [step1, hr2]
      exact List.elem_iff.mpr (List.mem_cons_self _ _)
    have step2 : offer (offer s r) r2 = offer s r := offer_of_contains _ _ hc2
    rw [step2, step1]
    have hnp : r.car_id ∉ pendingIds s := fun h => hnk (hinv _ h)
    simp only [pendingIds, List.map_append, List.count_append, List.map_cons, List.map_nil]
    have hnp2 : r.car_id ∉ List.map (fun q => q.car_id) s.pending := hnp
    rw [List.count_eq_zero.mpr hnp2]
    simp

/-- Witness for C6: offering the id `"a"` twice to the empty collector
state leaves one pending record with that id. -/
theorem c6_offer_dedup_witness :
    (pendingIds (offer (offer (initScrapeSt []) ⟨"a", none, none⟩) ⟨"a", none, none⟩)).count "a"
      = 1 :=
  (c6_offer_dedup (initScrapeSt []) ⟨"a", none, none⟩ ⟨"a", none, none⟩
      (by intro cid h; cases h)).2.2 (by decide) rfl

/-! ## Page-loop lemmas -/

theorem processPage_error_event (ev : PageEvent) (known upsert : List String) (t e : Nat)
    (h : processPage ev known upsert t = .error e) :
    ev = .rl429 ∧ isEndSignal ev = false ∧ MAX_TOTAL_429 ≤ e := by
  cases ev with
  | resp cars =>
      simp only [processPage, fetchPage] at h
      split at h <;> cases h
  | failed => simp [processPage, fetchPage] at h
  | rl429 =>
      refine ⟨rfl, rfl, ?_⟩
      simp only [processPage, fetchPage] at h
      by_cases hm : MAX_TOTAL_429 ≤ t + 1
      · rw [if_pos hm] at h
        cases h
        exact hm
      · rw [if_neg hm] at h
        cases h

theorem processPage_endOfBin_event (ev : PageEvent) (known upsert : List String) (t t' : Nat)
    (h : processPage ev known upsert t = .ok (.endOfBin, t')) :
    isEndSignal ev = true := by
  cases ev with
  | resp cars =>
      simp only [processPage, fetchPage] at h
      by_cases hc : cars.isEmpty = true
      · simp [isEndSignal, hc]
      · rw [if_neg hc] at h
        simp at h
  | failed => simp [processPage, fetchPage] at h
  | rl429 =>
      simp only [processPage, fetchPage] at h
      by_cases hm : MAX_TOTAL_429 ≤ t + 1
      · rw [if_pos hm] at h
        simp at h
      · rw [if_neg hm] at h
        simp at h

theorem processPage_records_event (ev : PageEvent) (known upsert : List String)
    (t t' : Nat) (rs : List CarInfo)
    (h : processPage ev known upsert t = .ok (.records rs, t')) :
    isEndSignal ev = false := by
  cases ev with
  | resp cars =>
      simp only [processPage, fetchPage] at h
      by_cases hc : cars.isEmpty = true
      · rw [if_pos hc] at h
        simp at h
      · simp [isEndSignal, hc]
  | failed => rfl
  | rl429 => rfl

theorem kmLoop_length (pages : Nat → PageEvent) (known upsert : List String) :
    ∀ (ps : List Nat) (t : Nat) (acc : List CarInfo) (disp : List (Nat × Bool)),
      (dispatchedPages (scrapeKmLoop pages known upsert ps t acc disp)).length
        ≤ disp.length + ps.length := by
  intro ps
  induction ps with
  | nil =>
      intro t acc disp
      simp [scrapeKmLoop, dispatchedPages]
  | cons p ps ih =>
      intro t acc disp
      rw [scrapeKmLoop]
      split
      · simp only [dispatchedPages, List.length_append, List.length_cons,
          List.length_singleton, List.length_nil]
        omega
      · simp only [dispatchedPages, List.length_append, List.length_cons,
          List.length_singleton, List.length_nil]
        omega
      · rename_i rs t2 heq
        have := ih t2 (acc ++ rs) (disp ++ [(p, false)])
        simp only [List.length_append, List.length_cons, List.length_singleton,
          List.length_nil] at this ⊢
        omega

theorem kmLoop_mem (pages : Nat → PageEvent) (known upsert : List String) :
    ∀ (ps : List Nat) (t : Nat) (acc : List CarInfo) (disp : List (Nat × Bool)),
      ∀ x ∈ dispatchedPages (scrapeKmLoop pages known upsert ps t acc disp),
        x ∈ disp ∨ (x.1 ∈ ps ∧ x.2 = isEndSignal (pages x.1)) := by
  intro ps
  induction ps with
  | nil =>
      intro t acc disp x hx
      exact Or.inl (by simpa [scrapeKmLoop, dispatchedPages] using hx)
  | cons p ps ih =>
      intro t acc disp x hx
      rw [scrapeKmLoop] at hx
      split at hx
      all_goals rename_i heq
      · simp only [dispatchedPages, List.mem_append, List.mem_singleton] at hx
        rcases hx with hx | hx
        · exact Or.inl hx
        · subst hx
          obtain ⟨-, hend, -⟩ := processPage_error_event _ _ _ _ _ heq
          exact Or.inr ⟨List.mem_cons_self _ _, hend.symm⟩
      · simp only [dispatchedPages, List.mem_append, List.mem_singleton] at hx
        rcases hx with hx | hx
        · exact Or.inl hx
        · subst hx
          have hend := processPage_endOfBin_event _ _ _ _ _ heq
          exact Or.inr ⟨List.mem_cons_self _ _, hend.symm⟩
      · rcases ih _ _ (disp ++ [(p, false)]) x hx with hx2 | ⟨h1, h2⟩
        · rcases List.mem_append.mp hx2 with hx3 | hx3
          · exact Or.inl hx3
          · have hx4 := List.mem_singleton.mp hx3
            subst hx4
            have hend := processPage_records_event _ _ _ _ _ _ heq
            exact Or.inr ⟨List.mem_cons_self _ _, hend.symm⟩
        · exact Or.inr ⟨List.mem_cons_of_mem _ h1, h2⟩

theorem kmLoop_dropLast (pages : Nat → PageEvent) (known upsert : List String) :
    ∀ (ps : List Nat) (t : Nat) (acc : List CarInfo) (disp : List (Nat × Bool)),
      (∀ x ∈ disp, x.2 = false) →
      ∀ x ∈ (dispatchedPages (scrapeKmLoop pages known upsert ps t acc disp)).dropLast,
        x.2 = false := by
  intro ps
  induction ps with
  | nil =>
      intro t acc disp hdisp x hx
      simp only [scrapeKmLoop, dispatchedPages] at hx
      exact hdisp x ((List.dropLast_sublist disp).subset hx)
  | cons p ps ih =>
      intro t acc disp hdisp x hx
      rw [scrapeKmLoop] at hx
      split at hx
      · simp only [dispatchedPages, List.dropLast_concat] at hx
        exact hdisp x hx
      · simp only [dispatchedPages, List.dropLast_concat] at hx
        exact hdisp x hx
      · refine ih _ _ (disp ++ [(p, false)]) ?_ x hx
        intro y hy
        rcases List.mem_append.mp hy with hy | hy
        · exact hdisp y hy
        · rw [List.mem_singleton.mp hy]

/-! ## Claim theorems: per-bin page dispatch -/

/-- C3: the per-bin sweep dispatches at most `PAGE_LIMIT` pages, each of
them among pages 1..PAGE_LIMIT; the dispatch trace marks a page `true`
exactly when it was the end-of-results page, and every dispatched page
that was followed by a further dispatch was not an end-of-results page
(so no new page is dispatched after the end signal). -/
theorem c3_page_dispatch (pages : Nat → PageEvent) (known upsert : List String) (t : Nat) :
    (dispatchedPages (scrapeKmRange pages known upsert t)).length ≤ PAGE_LIMIT ∧
    (∀ x ∈ dispatchedPages (scrapeKmRange pages known upsert t),
       1 ≤ x.1 ∧ x.1 ≤ PAGE_LIMIT ∧ x.2 = isEndSignal (pages x.1)) ∧
    ∀ x ∈ (dispatchedPages (scrapeKmRange pages known upsert t)).dropLast,
      isEndSignal (pages x.1) = false := by
  refine ⟨?_, ?_, ?_⟩
  · have := kmLoop_length pages known upsert (List.range' 1 PAGE_LIMIT) t [] []
    simpa [scrapeKmRange] using this
  · intro x hx
    rcases kmLoop_mem pages known upsert _ t [] [] x hx with h | ⟨h1, h2⟩
    · cases h
    · have hb := List.mem_range'_1.mp h1
      exact ⟨hb.1, by omega, h2⟩
  · intro x hx
    have hfalse := kmLoop_dropLast pages known upsert _ t [] []
      (by intro y hy; cases hy) x hx
    have hxd : x ∈ dispatchedPages (scrapeKmRange pages known upsert t) :=
      (List.dropLast_sublist _).subset hx
    rcases kmLoop_mem pages known upsert _ t [] [] x hxd with h | ⟨-, h2⟩
    · cases h
    · rw [← h2]
      exact hfalse

/-- Witness for C3 on a bin whose pages 1-2 hold listings and whose
page 3 is the end-of-results page. -/
theorem c3_page_dispatch_witness :
    (dispatchedPages (scrapeKmRange c3Pages [] [] 0)).length ≤ PAGE_LIMIT ∧
    (1 ≤ (3, true).1 ∧ (3, true).1 ≤ PAGE_LIMIT ∧
       (3, true).2 = isEndSignal (c3Pages (3, true).1)) ∧
    isEndSignal (c3Pages (1, false).1) = false :=
  ⟨(c3_page_dispatch c3Pages [] [] 0).1,
   (c3_page_dispatch c3Pages [] [] 0).2.1 (3, true) (by decide),
   (c3_page_dispatch c3Pages [] [] 0).2.2 (1, false) (by decide)⟩

/-! ## Claim theorems: per-page failure handling -/

theorem kmLoop_all_dispatch (pages : Nat → PageEvent) (known upsert : List String)
    (hp : ∀ p : Nat, isEndSignal (pages p) = false ∧ pages p ≠ .rl429) :
    ∀ (ps : List Nat) (t : Nat) (acc : List CarInfo) (disp : List (Nat × Bool)),
      ∃ cars t2, scrapeKmLoop pages known upsert ps t acc disp
        = .ok (cars, disp ++ ps.map (fun p => (p, false)), t2) := by
  intro ps
  induction ps with
  | nil =>
      intro t acc disp
      exact ⟨acc, t, by simp [scrapeKmLoop]⟩
  | cons p ps ih =>
      intro t acc disp
      obtain ⟨hend, hnot⟩ := hp p
      cases hev : pages p with
      | rl429 => exact absurd hev hnot
      | failed =>
          obtain ⟨cars, t2, hrec⟩ := ih t (acc ++ []) (disp ++ [(p, false)])
          refine ⟨cars, t2, ?_⟩
          have hstep : scrapeKmLoop pages known upsert (p :: ps) t acc disp
              = scrapeKmLoop pages known upsert ps t (acc ++ []) (disp ++ [(p, false)]) := by
            rw [scrapeKmLoop, hev]
            rfl
          rw [hstep, hrec, List.map_cons, List.append_assoc]
          rfl
      | resp cars =>
          have hne : ¬(cars.isEmpty = true) := by
            rw [hev] at hend
            simp only [isEndSignal] at hend
            simp [hend]
          have hpp : processPage (.resp cars) known upsert t
              = .ok (.records ((cars.filter
                  (fun c => passesIdFilter known upsert c.id)).map mkCarInfo), t) := by
            simp only [processPage, fetchPage]
            rw [if_neg hne]
          obtain ⟨cars2, t2, hrec⟩ := ih t
            (acc ++ (cars.filter (fun c => passesIdFilter known upsert c.id)).map mkCarInfo)
            (disp ++ [(p, false)])
          refine ⟨cars2, t2, ?_⟩
          have hstep : scrapeKmLoop pages known upsert (p :: ps) t acc disp
              = scrapeKmLoop pages known upsert ps t
                  (acc ++ (cars.filter (fun c => passesIdFilter known upsert c.id)).map mkCarInfo)
                  (disp ++ [(p, false)]) := by
            rw [scrapeKmLoop, hev, hpp]
          rw [hstep, hrec, List.map_cons, List.append_assoc]
          rfl

/-- C9: a coordinate whose fetch fails (timeout, exhausted retries,
fatal error — `html is None`) makes `process_page` return the empty
record list without raising, and a sweep in which every page fails (and
none is an end-of-results page or a 429) still dispatches all
`PAGE_LIMIT` pages and returns normally: per-page failures abandon only
that coordinate and never abort the sweep. -/
theorem c9_failed_page_skipped (known upsert : List String) (t : Nat)
    (pages : Nat → PageEvent) :
    processPage .failed known upsert t = .ok (.records [], t) ∧
    ((∀ p : Nat, isEndSignal (pages p) = false ∧ pages p ≠ .rl429) →
       ∃ cars t2, scrapeKmRange pages known upsert t
         = .ok (cars, (List.range' 1 PAGE_LIMIT).map (fun p => (p, false)), t2)) := by
  constructor
  · rfl
  · intro hp
    obtain ⟨cars, t2, h⟩ := kmLoop_all_dispatch pages known upsert hp
      (List.range' 1 PAGE_LIMIT) t [] []
    exact ⟨cars, t2, by simpa [scrapeKmRange] using h⟩

/-- Witness for C9 on a bin where every fetch fails. -/
theorem c9_failed_page_skipped_witness :
    processPage .failed [] [] 0 = .ok (.records [], 0) ∧
    ∃ cars t2, scrapeKmRange c9Pages [] [] 0
      = .ok (cars, (List.range' 1 PAGE_LIMIT).map (fun p => (p, false)), t2) :=
  ⟨(c9_failed_page_skipped [] [] 0 c9Pages).1,
   (c9_failed_page_skipped [] [] 0 c9Pages).2
     (fun p => ⟨rfl, by simp [c9Pages]⟩)⟩

/-! ## Breaker-propagation lemmas: an abort carries a counter at the
ceiling, and flush events survive unchanged through the sweep. -/

theorem kmLoop_error_t (pages : Nat → PageEvent) (known upsert : List String) :
    ∀ (ps : List Nat) (t : Nat) (acc : List CarInfo) (disp : List (Nat × Bool))
      (e : Nat) (d : List (Nat × Bool)),
      scrapeKmLoop pages known upsert ps t acc disp = .error (e, d) →
      MAX_TOTAL_429 ≤ e := by
  intro ps
  induction ps with
  | nil =>
      intro t acc disp e d h
      cases h
  | cons p ps ih =>
      intro t acc disp e d h
      rw [scrapeKmLoop] at h
      split at h
      all_goals rename_i heq
      · cases h
        exact (processPage_error_event _ _ _ _ _ heq).2.2
      · cases h
      · exact ih _ _ _ _ _ h

theorem processKmBin_error_t (pages : Nat → PageEvent) (s e : ScrapeSt)
    (h : processKmBin pages s = .error e) : MAX_TOTAL_429 ≤ e.t429 := by
  unfold processKmBin at h
  cases h2 : scrapeKmRange pages s.known s.upsertIds s.t429 with
  | error v =>
      obtain ⟨t, d⟩ := v
      rw [h2] at h
      cases h
      exact kmLoop_error_t pages s.known s.upsertIds _ _ _ _ _ _ h2
  | ok v =>
      rw [h2] at h
      cases h

theorem runKmBins_error_t (ev : Nat → Nat → PageEvent) :
    ∀ (ks : List Nat) (s e : ScrapeSt),
      runKmBins ev ks s = .error e → MAX_TOTAL_429 ≤ e.t429 := by
  intro ks
  induction ks with
  | nil =>
      intro s e h
      cases h
  | cons k ks ih =>
      intro s e h
      rw [runKmBins] at h
      cases h2 : processKmBin (ev k) s with
      | error e2 =>
          rw [h2] at h
          cases h
          exact processKmBin_error_t _ _ _ h2
      | ok s2 =>
          rw [h2] at h
          exact ih _ _ h

theorem processPriceBin_error_t (ev : Nat → Nat → Nat → PageEvent) (kmIdxs : List Nat)
    (p : Nat) (s e : ScrapeSt) (h : processPriceBin ev kmIdxs p s = .error e) :
    MAX_TOTAL_429 ≤ e.t429 := by
  unfold processPriceBin at h
  cases h2 : runKmBins (ev p) kmIdxs
      (if p % DB_REFRESH_RATE = 0 then refreshKnownIds s else s) with
  | error e2 =>
      rw [h2] at h
      cases h
      exact runKmBins_error_t _ _ _ _ h2
  | ok s2 =>
      rw [h2] at h
      cases h

theorem runPriceBins_error_t (ev : Nat → Nat → Nat → PageEvent) (kmIdxs : List Nat) :
    ∀ (ps : List Nat) (s e : ScrapeSt),
      runPriceBins ev kmIdxs ps s = .error e → MAX_TOTAL_429 ≤ e.t429 := by
  intro ps
  induction ps with
  | nil =>
      intro s e h
      cases h
  | cons p ps ih =>
      intro s e h
      rw [runPriceBins] at h
      cases h2 : processPriceBin ev kmIdxs p s with
      | error e2 =>
          rw [h2] at h
          cases h
          exact processPriceBin_error_t _ _ _ _ _ h2
      | ok s2 =>
          rw [h2] at h
          exact ih _ _ h

theorem scrapeCars_error_shape (ev : Nat → Nat → Nat → PageEvent) (st : List CarInfo)
    (s : ScrapeSt) (h : scrapeCars ev st = .error s) :
    runPriceBins ev (List.range (kmRanges.length - 1))
      (List.range (priceRanges.length - 1)) (initScrapeSt st) = .error s := by
  unfold scrapeCars at h
  cases h2 : runPriceBins ev (List.range (kmRanges.length - 1))
      (List.range (priceRanges.length - 1)) (initScrapeSt st) with
  | error e =>
      rw [h2] at h
      cases h
      rfl
  | ok s1 =>
      rw [h2] at h
      cases h

theorem scrapeCars_ok_shape (ev : Nat → Nat → Nat → PageEvent) (st : List CarInfo)
    (s : ScrapeSt) (h : scrapeCars ev st = .ok s) :
    ∃ s1, runPriceBins ev (List.range (kmRanges.length - 1))
        (List.range (priceRanges.length - 1)) (initScrapeSt st) = .ok s1 ∧
      s = finalFlush s1 := by
  unfold scrapeCars at h
  cases h2 : runPriceBins ev (List.range (kmRanges.length - 1))
      (List.range (priceRanges.length - 1)) (initScrapeSt st) with
  | error e =>
      rw [h2] at h
      cases h
  | ok s1 =>
      rw [h2] at h
      cases h
      exact ⟨s1, rfl, rfl⟩

theorem finalFlush_pending (s : ScrapeSt) : (finalFlush s).pending = [] := by
  unfold finalFlush
  split
  · rename_i h
    exact List.isEmpty_iff.mp h
  · rfl

theorem offer_flushes (s : ScrapeSt) (r : CarInfo) : (offer s r).flushes = s.flushes := by
  unfold offer
  split <;> rfl

theorem collectCars_flushes :
    ∀ (cars : List CarInfo) (s : ScrapeSt), (collectCars s cars).flushes = s.flushes := by
  intro cars
  induction cars with
  | nil => intro s; rfl
  | cons c cs ih =>
      intro s
      show (collectCars (offer s c) cs).flushes = s.flushes
      rw [ih, offer_flushes]

theorem processKmBin_flushes (pages : Nat → PageEvent) (s : ScrapeSt) :
    (exSt (processKmBin pages s)).flushes = s.flushes := by
  unfold processKmBin
  cases h : scrapeKmRange pages s.known s.upsertIds s.t429 with
  | error v =>
      obtain ⟨t, d⟩ := v
      rfl
  | ok v =>
      obtain ⟨cars, d, t⟩ := v
      show (collectCars _ cars).flushes = s.flushes
      rw [collectCars_flushes]

theorem runKmBins_flushes (ev : Nat → Nat → PageEvent) :
    ∀ (ks : List Nat) (s : ScrapeSt), (exSt (runKmBins ev ks s)).flushes = s.flushes := by
  intro ks
  induction ks with
  | nil => intro s; rfl
  | cons k ks ih =>
      intro s
      rw [runKmBins]
      cases h : processKmBin (ev k) s with
      | error e =>
          have := processKmBin_flushes (ev k) s
          rw [h] at this
          exact this
      | ok s2 =>
          have h1 := processKmBin_flushes (ev k) s
          rw [h] at h1
          rw [show (exSt (match (Except.ok s2 : Except ScrapeSt ScrapeSt) with
              | .error e => .error e
              | .ok s' => runKmBins ev ks s')).flushes
            = (exSt (runKmBins ev ks s2)).flushes from rfl, ih s2]
          exact h1

theorem sizeFlushCheck_pending (s : ScrapeSt) :
    (sizeFlushCheck s).pending.length < BATCH_SIZE := by
  unfold sizeFlushCheck
  split
  · show ([] : List CarInfo).length < BATCH_SIZE
    simp [BATCH_SIZE]
  · rename_i h
    omega

theorem sizeFlushCheck_events (s : ScrapeSt) (f : FlushKind × Nat)
    (hf : f ∈ (sizeFlushCheck s).flushes) :
    f ∈ s.flushes ∨ (f.1 = FlushKind.size ∧ BATCH_SIZE ≤ f.2) := by
  unfold sizeFlushCheck at hf
  split at hf
  · rename_i h
    rcases List.mem_append.mp hf with h1 | h1
    · exact Or.inl h1
    · rw [List.mem_singleton.mp h1]
      exact Or.inr ⟨rfl, h⟩
  · exact Or.inl hf

theorem refresh_flushes (p : Nat) (s : ScrapeSt) :
    (if p % DB_REFRESH_RATE = 0 then refreshKnownIds s else s).flushes = s.flushes := by
  split <;> rfl

theorem processPriceBin_events (ev : Nat → Nat → Nat → PageEvent) (kmIdxs : List Nat)
    (p : Nat) (s : ScrapeSt) (f : FlushKind × Nat)
    (hf : f ∈ (exSt (processPriceBin ev kmIdxs p s)).flushes) :
    f ∈ s.flushes ∨ (f.1 = FlushKind.size ∧ BATCH_SIZE ≤ f.2) := by
  unfold processPriceBin at hf
  cases h : runKmBins (ev p) kmIdxs
      (if p % DB_REFRESH_RATE = 0 then refreshKnownIds s else s) with
  | error e =>
      rw [h] at hf
      have h1 := runKmBins_flushes (ev p) kmIdxs
        (if p % DB_REFRESH_RATE = 0 then refreshKnownIds s else s)
      rw [h, refresh_flushes] at h1
      exact Or.inl (h1 ▸ hf)
  | ok s2 =>
      rw [h] at hf
      have h1 := runKmBins_flushes (ev p) kmIdxs
        (if p % DB_REFRESH_RATE = 0 then refreshKnownIds s else s)
      rw [h, refresh_flushes] at h1
      rcases sizeFlushCheck_events s2 f hf with h2 | h2
      · exact Or.inl (h1 ▸ h2)
      · exact Or.inr h2

theorem processPriceBin_ok_pending (ev : Nat → Nat → Nat → PageEvent) (kmIdxs : List Nat)
    (p : Nat) (s s' : ScrapeSt) (h : processPriceBin ev kmIdxs p s = .ok s') :
    s'.pending.length < BATCH_SIZE := by
  unfold processPriceBin at h
  cases h2 : runKmBins (ev p) kmIdxs
      (if p % DB_REFRESH_RATE = 0 then refreshKnownIds s else s) with
  | error e =>
      rw [h2] at h
      cases h
  | ok s2 =>
      rw [h2] at h
      cases h
      exact sizeFlushCheck_pending s2

theorem runPriceBins_events (ev : Nat → Nat → Nat → PageEvent) (kmIdxs : List Nat) :
    ∀ (ps : List Nat) (s : ScrapeSt) (f : FlushKind × Nat),
      f ∈ (exSt (runPriceBins ev kmIdxs ps s)).flushes →
      f ∈ s.flushes ∨ (f.1 = FlushKind.size ∧ BATCH_SIZE ≤ f.2) := by
  intro ps
  induction ps with
  | nil =>
      intro s f hf
      exact Or.inl hf
  | cons p ps ih =>
      intro s f hf
      rw [runPriceBins] at hf
      cases h : processPriceBin ev kmIdxs p s with
      | error e =>
          rw [h] at hf
          exact processPriceBin_events ev kmIdxs p s f (by rw [h]; exact hf)
      | ok s2 =>
          rw [h] at hf
          rcases ih s2 f hf with h1 | h1
          · exact processPriceBin_events ev kmIdxs p s f (by rw [h]; exact h1)
          · exact Or.inr h1

theorem runPriceBins_ok_pending (ev : Nat → Nat → Nat → PageEvent) (kmIdxs : List Nat) :
    ∀ (ps : List Nat) (s s' : ScrapeSt),
      runPriceBins ev kmIdxs ps s = .ok s' → s.pending.length < BATCH_SIZE →
      s'.pending.length < BATCH_SIZE := by
  intro ps
  induction ps with
  | nil =>
      intro s s' h hp
      cases h
      exact hp
  | cons p ps ih =>
      intro s s' h hp
      rw [runPriceBins] at h
      cases h2 : processPriceBin ev kmIdxs p s with
      | error e =>
          rw [h2] at h
          cases h
      | ok s2 =>
          rw [h2] at h
          exact ih s2 s' h (processPriceBin_ok_pending ev kmIdxs p s s2 h2)

theorem finalFlush_events (s : ScrapeSt) (f : FlushKind × Nat)
    (hf : f ∈ (finalFlush s).flushes) :
    f ∈ s.flushes ∨ (f.1 = FlushKind.final ∧ f.2 = s.pending.length ∧ 0 < f.2) := by
  unfold finalFlush at hf
  split at hf
  · exact Or.inl hf
  · rename_i h
    rcases List.mem_append.mp hf with h1 | h1
    · exact Or.inl h1
    · rw [List.mem_singleton.mp h1]
      refine Or.inr ⟨rfl, rfl, ?_⟩
      show 0 < s.pending.length
      cases hp : s.pending with
      | nil => exact absurd (by rw [hp]; rfl) h
      | cons a l => simp [hp]

/-! ## Claim theorems: breaker shutdown -/

/-- C1 counterexample: in the run `c1Ev` the first page yields one new
record and every later page answers 429. The breaker ceiling is
reached, and the process dies by `SystemExit` with the record still in
the pending batch: no flush event happened, the store stays empty, and
the duplicate-removal pass never ran — the accumulated record is
discarded, contradicting the claim that partial progress is always
committed. -/
theorem c1_counterexample :
    MAX_TOTAL_429 ≤ (mainModel c1Ev []).total429 ∧
    (mainModel c1Ev []).exit = ExitKind.sysExit ∧
    (mainModel c1Ev []).pendingAtEnd = [⟨"car1", none, none⟩] ∧
    (mainModel c1Ev []).flushes = [] ∧
    (mainModel c1Ev []).store = [] ∧
    (mainModel c1Ev []).dupRemovalRan = false := by decide

/-- C1 amended: reaching the breaker ceiling terminates the run by
`SystemExit`, which skips the normal shutdown sequence: the
duplicate-removal pass does not run (and the pending batch is not
flushed); only a normally-terminating run performs the final flush
(leaving nothing pending) and the duplicate-removal pass. -/
theorem c1_breaker_shutdown (ev : Nat → Nat → Nat → PageEvent) (initStore : List CarInfo) :
    ((mainModel ev initStore).exit = ExitKind.sysExit →
       (mainModel ev initStore).dupRemovalRan = false ∧
       MAX_TOTAL_429 ≤ (mainModel ev initStore).total429) ∧
    ((mainModel ev initStore).exit = ExitKind.normal →
       (mainModel ev initStore).dupRemovalRan = true ∧
       (mainModel ev initStore).pendingAtEnd = []) := by
  unfold mainModel
  cases h : scrapeCars ev initStore with
  | ok s =>
      refine ⟨fun hx => ?_, fun _ => ⟨rfl, ?_⟩⟩
      · cases hx
      · obtain ⟨s1, h1, h2⟩ := scrapeCars_ok_shape ev initStore s h
        show s.pending = []
        rw [h2]
        exact finalFlush_pending s1
  | error s =>
      refine ⟨fun _ => ⟨rfl, ?_⟩, fun hx => ?_⟩
      · show MAX_TOTAL_429 ≤ s.t429
        exact runPriceBins_error_t ev _ _ _ _ (scrapeCars_error_shape ev initStore s h)
      · cases hx

/-- Witness for the amended C1 on the breaker-tripping run `c1Ev`. -/
theorem c1_breaker_shutdown_witness :
    (mainModel c1Ev []).dupRemovalRan = false ∧
    MAX_TOTAL_429 ≤ (mainModel c1Ev []).total429 :=
  (c1_breaker_shutdown c1Ev []).1 (by decide)

/-! ## Claim theorems: batch flush sizes -/

/-- C4 counterexample: in the run `c4Ev` the first price bin collects
201 fresh records, and the batch-size check — which in scraper.py runs
once per price bin, after all of the bin's futures are collected —
flushes all 201 of them in one size-triggered flush, exceeding
`BATCH_SIZE = 200`. -/
theorem c4_counterexample :
    (mainModel c4Ev []).flushes = [(FlushKind.size, 201)] ∧ ¬(201 = BATCH_SIZE) := by
  decide

/-- C4 amended: every size-triggered flush upserts at least
`BATCH_SIZE` records (possibly more, because the check runs once per
price bin), and the end-of-run flush, when it happens, upserts a
nonempty remainder strictly smaller than `BATCH_SIZE`. -/
theorem c4_flush_sizes (ev : Nat → Nat → Nat → PageEvent) (st : List CarInfo)
    (f : FlushKind × Nat) (hf : f ∈ (mainModel ev st).flushes) : flushEventOk f := by
  unfold mainModel at hf
  cases h : scrapeCars ev st with
  | ok s =>
      rw [h] at hf
      obtain ⟨s1, h1, h2⟩ := scrapeCars_ok_shape ev st s h
      subst h2
      rcases finalFlush_events s1 f hf with h3 | ⟨h3, h4, h5⟩
      · rcases runPriceBins_events ev _ _ _ f (by rw [h1]; exact h3) with h4 | ⟨h4, h5⟩
        · cases h4
        · refine ⟨fun _ => h5, fun hfi => ?_⟩
          rw [h4] at hfi
          cases hfi
      · have hlt : s1.pending.length < BATCH_SIZE :=
          runPriceBins_ok_pending ev _ _ _ _ h1 (by simp [initScrapeSt, BATCH_SIZE])
        refine ⟨fun hfi => ?_, fun _ => ⟨h5, h4 ▸ hlt⟩⟩
        rw [h3] at hfi
        cases hfi
  | error s =>
      rw [h] at hf
      have h1 := scrapeCars_error_shape ev st s h
      rcases runPriceBins_events ev _ _ _ f (by rw [h1]; exact hf) with h4 | ⟨h4, h5⟩
      · cases h4
      · refine ⟨fun _ => h5, fun hfi => ?_⟩
        rw [h4] at hfi
        cases hfi

/-- Witness for the amended C4: the 201-record size-triggered flush of
the run `c4Ev` satisfies the size bound. -/
theorem c4_flush_sizes_witness : flushEventOk (FlushKind.size, 201) :=
  c4_flush_sizes c4Ev [] (FlushKind.size, 201) (by decide)

/-! ## Claim theorems: duplicate removal -/

/-- C5: on a store holding rows (id 1, car "A"), (id 2, car "A"),
(id 3, car "B"), the duplicate-removal pass of scraper.py deletes by
the `car_id` column, so both "A" rows disappear — including the first
inserted one the pass is meant to keep. The sibling implementation in
src/main.py deletes by the primary-key `id` column and keeps row 1,
matching the spec's keep-first semantics. -/
theorem c5_remove_duplicates_eval :
    removeDuplicatesScraper [⟨1, "A"⟩, ⟨2, "A"⟩, ⟨3, "B"⟩] = [⟨3, "B"⟩] ∧
    removeDuplicatesById [⟨1, "A"⟩, ⟨2, "A"⟩, ⟨3, "B"⟩] = [⟨1, "A"⟩, ⟨3, "B"⟩] ∧
    keepFirstPerCarId [⟨1, "A"⟩, ⟨2, "A"⟩, ⟨3, "B"⟩] = [⟨1, "A"⟩, ⟨3, "B"⟩] := by
  decide

end CarSales
